import Mathlib

/-!
Verification development for the crolin-kit worker pool (src/core/thread).

The embedding below is a shallow model of `thread.c` and `thread_internal.h`.
C strings (char arrays) are modelled as `List Char`, C `int` counters as `Int`,
pointers that are only tested for nullness as `Option` values, and the heap
allocator as a boolean success flag where a claim depends on the allocation
outcome (everywhere else the success path of the allocator is modelled).
Each operation follows the control flow of the corresponding C function;
line numbers in the doc comments refer to `src/src/core/thread/src/thread.c`.
-/

namespace CrolinThread

/-- MAX_TASK_NAME_LEN from thread.h: the name buffer holds at most 63
characters plus the terminator. -/
def MAX_TASK_NAME_LEN : Nat := 64

/-- task_t from thread.h: the work function and its argument are opaque
pointers, modelled as numbers; the name is the char array contents
(terminator excluded); the priority is the numeric enum value. -/
structure Task where
  function : Nat
  arg : Nat
  task_name : List Char
  priority : Int
deriving Repr, DecidableEq, Inhabited

/-- Priority constant TASK_PRIORITY_HIGH from thread.h. -/
def TASK_PRIORITY_HIGH : Int := 0

/-- Priority constant TASK_PRIORITY_NORMAL from thread.h. -/
def TASK_PRIORITY_NORMAL : Int := 5

/-- Priority constant TASK_PRIORITY_LOW from thread.h. -/
def TASK_PRIORITY_LOW : Int := 10

/-- Priority constant TASK_PRIORITY_BACKGROUND from thread.h. -/
def TASK_PRIORITY_BACKGROUND : Int := 15

/-- struct thread_pool_s from thread_internal.h, restricted to the fields the
claims are about. The queue is the head-to-tail list of task nodes; the
worker arrays `running_task_names` and `thread_status` are lists indexed by
the worker id; synchronization primitives and thread handles carry no
observable state and are omitted. -/
structure Pool where
  queue : List Task
  task_queue_size : Int
  thread_count : Int
  min_threads : Int
  max_threads : Int
  idle_threads : Int
  shutdown : Bool
  resize_shutdown : Bool
  started : Int
  running_task_names : List (List Char)
  thread_status : List Int
  auto_adjust : Bool
  high_watermark : Int
  low_watermark : Int
  adjust_interval : Int
deriving Repr, DecidableEq, Inhabited

/-- thread_pool_stats_t from thread.h. -/
structure Stats where
  thread_count : Int
  min_threads : Int
  max_threads : Int
  idle_threads : Int
  task_queue_size : Int
  started : Int
deriving Repr, DecidableEq, Inhabited

/-- The walk of task_enqueue_internal (thread.c lines 56 to 77): starting from
the head, step over every node whose priority value is less than or equal to
the priority of the new task, and link the new node in front of the first
node with a strictly greater priority value (or at the tail). -/
def enqueue_walk (task : Task) : List Task → List Task
  | [] => [task]
  | c :: rest =>
    if c.priority ≤ task.priority then c :: enqueue_walk task rest
    else task :: c :: rest

/-- task_enqueue_internal (thread.c lines 34 to 99), success path of the node
allocation. An empty queue receives the task directly (lines 44 to 46); a
task with a strictly smaller priority value than the head is linked at the
head (lines 50 to 53); otherwise the walk inserts it (lines 56 to 77).
The queue size counter is incremented (line 81); the auto-adjust signalling
(lines 87 to 97) changes no modelled state. -/
def task_enqueue_internal (pool : Pool) (task : Task) : Pool :=
  let newQueue :=
    match pool.queue with
    | [] => [task]
    | h :: t =>
      if task.priority < h.priority then task :: h :: t
      else enqueue_walk task (h :: t)
  { pool with queue := newQueue, task_queue_size := pool.task_queue_size + 1 }

/-- task_dequeue_internal (thread.c lines 114 to 145), success path of the
copy allocation: `none` on an empty queue (lines 116 to 119), otherwise the
head task is removed and returned and the size counter decremented. -/
def task_dequeue_internal (pool : Pool) : Option (Task × Pool) :=
  match pool.queue with
  | [] => none
  | t :: rest =>
    some (t, { pool with queue := rest, task_queue_size := pool.task_queue_size - 1 })

/-- The exit predicate of a worker (thread.c lines 246 to 248):
(shutdown and the queue is empty) or the worker id is at or past
thread_count or its status slot is negative. -/
def worker_exit_cond (p : Pool) (tid : Nat) : Prop :=
  (p.shutdown = true ∧ p.task_queue_size = 0) ∨
    p.thread_count ≤ (tid : Int) ∨
    ((tid : Int) < p.thread_count ∧ p.thread_status.getD tid 0 < 0)

instance (p : Pool) (tid : Nat) : Decidable (worker_exit_cond p tid) := by
  unfold worker_exit_cond; infer_instance

/-- The exit path of worker_thread_function (thread.c lines 246 to 273): when
the exit predicate holds, the idle counter is decremented only when the id is
still in range and the slot is idle (line 250), and the status slot is set to
-1 only when the id is in range (lines 257 to 259). Otherwise no change. -/
def worker_exit (p : Pool) (tid : Nat) : Pool :=
  if worker_exit_cond p tid then
    let idle' :=
      if (tid : Int) < p.thread_count ∧ p.thread_status.getD tid 0 = 0
      then p.idle_threads - 1 else p.idle_threads
    let status' :=
      if (tid : Int) < p.thread_count then p.thread_status.set tid (-1)
      else p.thread_status
    { p with idle_threads := idle', thread_status := status' }
  else p

/-- The dispatch step of worker_thread_function (thread.c lines 276 to 305):
reached only when the exit predicate is false; dequeues one task (a spurious
wakeup with an empty queue changes nothing, lines 281 to 287), decrements the
idle counter when the slot was idle (lines 290 to 294), marks the slot busy
(line 295) and copies at most 63 characters of the task name into the slot
(line 299). -/
def worker_dispatch (p : Pool) (tid : Nat) : Pool :=
  if worker_exit_cond p tid then p
  else
    match task_dequeue_internal p with
    | none => p
    | some (task, p1) =>
      let idle' :=
        if p1.thread_status.getD tid 0 = 0 then p1.idle_threads - 1
        else p1.idle_threads
      { p1 with
        idle_threads := idle',
        thread_status := p1.thread_status.set tid 1,
        running_task_names :=
          p1.running_task_names.set tid (task.task_name.take (MAX_TASK_NAME_LEN - 1)) }

/-- The completion step of worker_thread_function (thread.c lines 320 to 386):
when the id fell out of range during execution nothing changes (lines 324 to
332); when the slot is not idle it is reset to idle, the name slot is
restored to "[idle]" and the idle counter is incremented (lines 335 to 344);
otherwise nothing changes. The auto-adjust signalling (lines 347 to 366)
changes no modelled state. -/
def worker_complete (p : Pool) (tid : Nat) : Pool :=
  if p.thread_count ≤ (tid : Int) then p
  else if p.thread_status.getD tid 0 ≠ 0 then
    { p with
      thread_status := p.thread_status.set tid 0,
      running_task_names := p.running_task_names.set tid "[idle]".toList,
      idle_threads := p.idle_threads + 1 }
  else p

/-- thread_pool_create (thread.c lines 540 to 745), success path of all
allocations and spawns: `none` for a non-positive count (lines 571 to 574);
otherwise the pool starts with thread_count = num_threads, min_threads = 1,
max_threads = num_threads * 2, idle_threads = 0, shutdown = 0 (lines 584 to
589), started incremented to num_threads by the spawn loop (line 741), every
status slot set to 1 (busy, lines 652 to 654) and every name slot set to
"[idle]" (lines 686 to 687). The watermark defaults are from lines 597 to
599. -/
def thread_pool_create (num_threads : Int) : Option Pool :=
  if num_threads ≤ 0 then none
  else
    some
      { queue := []
        task_queue_size := 0
        thread_count := num_threads
        min_threads := 1
        max_threads := num_threads * 2
        idle_threads := 0
        shutdown := false
        resize_shutdown := false
        started := num_threads
        running_task_names := List.replicate num_threads.toNat "[idle]".toList
        thread_status := List.replicate num_threads.toNat 1
        auto_adjust := false
        high_watermark := num_threads
        low_watermark := num_threads / 2
        adjust_interval := 5000 }

/-- thread_pool_add_task (thread.c lines 761 to 811). A null pool or function
gives -1 (lines 764 to 768); a pool marked shutdown gives -1 (lines 772 to
776); a null name is replaced by the literal "unnamed_task" and a given name
is truncated to 63 characters (lines 785 to 790); the enqueue result is
returned, 0 on success and -1 when the node allocation fails with the pool
unchanged (lines 793 to 810). `allocOk` models the allocator outcome inside
task_enqueue_internal. -/
def thread_pool_add_task (pool? : Option Pool) (function? : Option Nat) (arg : Nat)
    (task_name? : Option (List Char)) (priority : Int) (allocOk : Bool) :
    Int × Option Pool :=
  match pool?, function? with
  | none, _ => (-1, pool?)
  | some _, none => (-1, pool?)
  | some p, some f =>
    if p.shutdown then (-1, some p)
    else
      let nm :=
        match task_name? with
        | none => "unnamed_task".toList.take (MAX_TASK_NAME_LEN - 1)
        | some s => s.take (MAX_TASK_NAME_LEN - 1)
      let task : Task := { function := f, arg := arg, task_name := nm, priority := priority }
      if allocOk then (0, some (task_enqueue_internal p task))
      else (-1, some p)

/-- thread_pool_resize (thread.c lines 1204 to 1363), success path of the
allocations and spawns during a grow. A target outside [min_threads,
max_threads] is rejected with -1 before any state is read or written (lines
1215 to 1221); a pool marked shutdown is rejected with -1 (lines 1226 to
1231); an equal target is a no-op returning 0 (lines 1237 to 1244). A grow
(lines 1246 to 1344) copies the first thread_count entries of the worker
arrays, appends new slots with status 0 and name "[idle]", adds one to
idle_threads and started per spawned worker and clears resize_shutdown. A
shrink (lines 1345 to 1353) only sets resize_shutdown. Both then store the
new logical thread_count (line 1355). -/
def thread_pool_resize (p : Pool) (new_thread_count : Int) : Int × Pool :=
  if new_thread_count < p.min_threads ∨ p.max_threads < new_thread_count then (-1, p)
  else if p.shutdown then (-1, p)
  else if new_thread_count = p.thread_count then (0, p)
  else if p.thread_count < new_thread_count then
    let k := (new_thread_count - p.thread_count).toNat
    (0,
      { p with
        running_task_names :=
          p.running_task_names.take p.thread_count.toNat ++
            List.replicate k "[idle]".toList
        thread_status := p.thread_status.take p.thread_count.toNat ++ List.replicate k 0
        idle_threads := p.idle_threads + (new_thread_count - p.thread_count)
        started := p.started + (new_thread_count - p.thread_count)
        resize_shutdown := false
        thread_count := new_thread_count })
  else
    (0, { p with resize_shutdown := true, thread_count := new_thread_count })

/-- thread_pool_get_stats (thread.c lines 1539 to 1573): `none` for a null
pool or a pool marked shutdown, otherwise a snapshot of the counters. -/
def thread_pool_get_stats (pool? : Option Pool) : Option Stats :=
  match pool? with
  | none => none
  | some p =>
    if p.shutdown then none
    else
      some
        { thread_count := p.thread_count
          min_threads := p.min_threads
          max_threads := p.max_threads
          idle_threads := p.idle_threads
          task_queue_size := p.task_queue_size
          started := p.started }

/-- thread_pool_get_running_task_names (thread.c lines 1377 to 1449), success
path of the allocations: `none` for a null pool (lines 1379 to 1382) or a
pool marked shutdown (lines 1386 to 1391); otherwise one entry per worker id
below thread_count (clamped at 0, lines 1393 to 1396): a busy slot yields at
most 63 copied characters of the slot name (lines 1423 to 1428), and an
other slot yields the marker for its status (lines 1430 to 1442). The
terminating null pointer of the C array is the end of the returned list. -/
def thread_pool_get_running_task_names (pool? : Option Pool) :
    Option (List (List Char)) :=
  match pool? with
  | none => none
  | some p =>
    if p.shutdown then none
    else
      let count := if p.thread_count < 0 then 0 else p.thread_count
      some <|
        (List.range count.toNat).map fun i =>
          if 0 < p.thread_status.getD i 0 then
            (p.running_task_names.getD i []).take (MAX_TASK_NAME_LEN - 1)
          else if p.thread_status.getD i 0 = -2 then "[exiting_resize]".toList
          else if p.thread_status.getD i 0 = -1 then "[exiting_shutdown]".toList
          else "[idle]".toList

/-- The decision of one iteration of auto_adjust_thread_function (thread.c
lines 462 to 514): evaluated only when auto_adjust is set and the pool is not
shutdown (line 462); a queue above the high watermark with room to grow asks
for one more thread (lines 474 to 478), otherwise an idle count above the low
watermark with room to shrink asks for one fewer (lines 480 to 484); the
result is clamped to [min_threads, max_threads] (lines 489 to 494) and kept
only when it still differs from the current count (lines 487 and 497). -/
def auto_adjust_decision (p : Pool) : Option Int :=
  if p.auto_adjust = true ∧ p.shutdown = false then
    let ct := p.thread_count
    let target0 :=
      if p.task_queue_size > p.high_watermark ∧ ct < p.max_threads then ct + 1
      else if p.idle_threads > p.low_watermark ∧ ct > p.min_threads then ct - 1
      else ct
    if target0 ≠ ct then
      let t1 := if target0 > p.max_threads then p.max_threads else target0
      let t2 := if t1 < p.min_threads then p.min_threads else t1
      if t2 ≠ ct then some t2 else none
    else none
  else none

/-- The queue invariant of the priority queue: traversal from head to tail is
monotonically non-decreasing in the priority value. -/
def QueueSorted (l : List Task) : Prop :=
  List.Pairwise (fun a b => a.priority ≤ b.priority) l

instance (l : List Task) : Decidable (QueueSorted l) := by
  unfold QueueSorted; infer_instance

/-- Structural well-formedness of the worker arrays: the name and status
arrays have the same physical length, the logical thread_count does not
exceed that length, and the bounds are the ones create and resize maintain. -/
def PoolWF (p : Pool) : Prop :=
  p.running_task_names.length = p.thread_status.length ∧
  p.thread_count ≤ (p.thread_status.length : Int) ∧
  0 ≤ p.thread_count ∧ 1 ≤ p.min_threads

instance (p : Pool) : Decidable (PoolWF p) := by
  unfold PoolWF; infer_instance

/-- The amended worker-slot invariant: every worker slot whose status is 0
(IDLE) holds the literal name "[idle]". -/
def WorkerIdleNameInv (p : Pool) : Prop :=
  ∀ i, i < p.thread_status.length → p.thread_status.getD i 0 = 0 →
    p.running_task_names.getD i [] = "[idle]".toList

instance (p : Pool) : Decidable (WorkerIdleNameInv p) := by
  unfold WorkerIdleNameInv; infer_instance

def poolOne : Pool := (thread_pool_create 1).getD default

def poolTwo : Pool := (thread_pool_create 2).getD default

def poolQ : Pool :=
  ((thread_pool_add_task (thread_pool_create 1) (some 7) 0 (some "a".toList)
      TASK_PRIORITY_NORMAL true).2).getD default

def taskH : Task :=
  { function := 7, arg := 0, task_name := "h".toList, priority := TASK_PRIORITY_HIGH }

def pool8 : Pool := { poolTwo with auto_adjust := true, task_queue_size := 5 }

def poolGrown : Pool := (thread_pool_resize poolTwo 3).2

/-- The trace that violates the idle-count bound: a pool of two workers runs
one task on each worker (so both end idle and idle_threads = 2), is then
resized down to one thread, and the excess worker exits; its exit path skips
the idle decrement because its id is no longer below thread_count. -/
def shrinkTrace : Pool :=
  let p0 := poolTwo
  let p1 := ((thread_pool_add_task (some p0) (some 1) 0 (some "a".toList)
      TASK_PRIORITY_NORMAL true).2).getD default
  let p2 := ((thread_pool_add_task (some p1) (some 1) 0 (some "b".toList)
      TASK_PRIORITY_NORMAL true).2).getD default
  let p3 := worker_dispatch p2 0
  let p4 := worker_complete p3 0
  let p5 := worker_dispatch p4 1
  let p6 := worker_complete p5 1
  let p7 := (thread_pool_resize p6 1).2
  worker_exit p7 1

theorem getD_set_self {α : Type} (l : List α) (i : Nat) (a d : α) (h : i < l.length) :
    (l.set i a).getD i d = a := by
  induction l generalizing i with
  | nil => simp at h
  | cons x xs ih =>
    cases i with
    | zero => rfl
    | succ j => exact ih j (Nat.lt_of_succ_lt_succ h)

theorem getD_set_ne {α : Type} (l : List α) {i j : Nat} (a d : α) (h : i ≠ j) :
    (l.set i a).getD j d = l.getD j d := by
  induction l generalizing i j with
  | nil => simp
  | cons x xs ih =>
    cases i with
    | zero =>
      cases j with
      | zero => exact absurd rfl h
      | succ m => rfl
    | succ n =>
      cases j with
      | zero => rfl
      | succ m => exact ih (fun hc => h (by rw [hc]))

theorem getD_take_of_lt {α : Type} (l : List α) {i k : Nat} (d : α) (h : i < k) :
    (l.take k).getD i d = l.getD i d := by
  induction l generalizing i k with
  | nil => simp
  | cons x xs ih =>
    cases k with
    | zero => simp at h
    | succ m =>
      cases i with
      | zero => rfl
      | succ n => exact ih (Nat.lt_of_succ_lt_succ h)

theorem getD_replicate_of_lt {α : Type} {n i : Nat} (a d : α) (h : i < n) :
    (List.replicate n a).getD i d = a := by
  induction n generalizing i with
  | zero => simp at h
  | succ m ih =>
    cases i with
    | zero => rfl
    | succ j => exact ih (Nat.lt_of_succ_lt_succ h)

theorem enqueue_walk_eq (task : Task) (l : List Task) :
    enqueue_walk task l =
      l.takeWhile (fun t => decide (t.priority ≤ task.priority)) ++
        task :: l.dropWhile (fun t => decide (t.priority ≤ task.priority)) := by
  induction l with
  | nil => simp [enqueue_walk]
  | cons c rest ih =>
    by_cases hc : c.priority ≤ task.priority
    · simp [enqueue_walk, List.takeWhile_cons, List.dropWhile_cons, hc, ih]
    · simp [enqueue_walk, List.takeWhile_cons, List.dropWhile_cons, hc]

theorem mem_enqueue_walk {x task : Task} {l : List Task} :
    x ∈ enqueue_walk task l ↔ x = task ∨ x ∈ l := by
  induction l with
  | nil => simp [enqueue_walk]
  | cons c rest ih =>
    by_cases hc : c.priority ≤ task.priority
    · simp only [enqueue_walk, if_pos hc, List.mem_cons, ih]
      tauto
    · simp only [enqueue_walk, if_neg hc, List.mem_cons]

theorem enqueue_walk_sorted (task : Task) :
    ∀ l : List Task, QueueSorted l → QueueSorted (enqueue_walk task l) := by
  intro l
  induction l with
  | nil =>
    intro _
    simp only [enqueue_walk, QueueSorted]
    exact List.pairwise_singleton _ _
  | cons c rest ih =>
    intro hs
    rw [QueueSorted, List.pairwise_cons] at hs
    by_cases hc : c.priority ≤ task.priority
    · simp only [enqueue_walk, if_pos hc]
      rw [QueueSorted, List.pairwise_cons]
      refine ⟨?_, ih hs.2⟩
      intro x hx
      rcases mem_enqueue_walk.mp hx with hx | hx
      · rw [hx]; exact hc
      · exact hs.1 x hx
    · simp only [enqueue_walk, if_neg hc]
      rw [QueueSorted, List.pairwise_cons]
      have htc : task.priority ≤ c.priority := Int.le_of_lt (Int.lt_of_not_ge hc)
      refine ⟨?_, ?_⟩
      · intro x hx
        rcases List.mem_cons.mp hx with hx | hx
        · rw [hx]; exact htc
        · exact le_trans htc (hs.1 x hx)
      · exact List.pairwise_cons.mpr hs

theorem task_enqueue_queue (p : Pool) (task : Task) :
    (task_enqueue_internal p task).queue = enqueue_walk task p.queue := by
  unfold task_enqueue_internal
  cases hq : p.queue with
  | nil => rfl
  | cons h t =>
    by_cases hlt : task.priority < h.priority
    · have hc : ¬ h.priority ≤ task.priority := Int.not_le.mpr hlt
      simp [enqueue_walk, hlt, hc]
    · have hc : h.priority ≤ task.priority := Int.not_lt.mp hlt
      simp [enqueue_walk, hlt, hc]

theorem create_establishes (n : Int) (p : Pool) (h : thread_pool_create n = some p) :
    PoolWF p ∧ WorkerIdleNameInv p := by
  unfold thread_pool_create at h
  split at h
  · exact absurd h (by simp)
  · rename_i hn
    injection h with h
    subst h
    constructor
    · unfold PoolWF
      dsimp only
      refine ⟨by simp, ?_, by omega, by omega⟩
      simp only [List.length_replicate]
      omega
    · intro i hi hstat
      simp only [List.length_replicate] at hi
      rw [getD_replicate_of_lt _ _ hi] at hstat
      exact absurd hstat (by decide)

theorem dispatch_preserves (p : Pool) (tid : Nat) (hwf : PoolWF p)
    (hinv : WorkerIdleNameInv p) :
    PoolWF (worker_dispatch p tid) ∧ WorkerIdleNameInv (worker_dispatch p tid) := by
  unfold worker_dispatch
  split
  · exact ⟨hwf, hinv⟩
  · unfold task_dequeue_internal
    cases hq : p.queue with
    | nil => exact ⟨hwf, hinv⟩
    | cons t rest =>
      constructor
      · unfold PoolWF at hwf ⊢
        simp only [List.length_set]
        exact hwf
      · intro i hi hstat
        simp only [List.length_set] at hi hstat ⊢
        by_cases hit : i = tid
        · subst hit
          rw [getD_set_self _ _ _ _ hi] at hstat
          exact absurd hstat (by decide)
        · rw [getD_set_ne _ _ _ (fun hh => hit hh.symm)] at hstat
          rw [getD_set_ne _ _ _ (fun hh => hit hh.symm)]
          exact hinv i hi hstat

theorem complete_preserves (p : Pool) (tid : Nat) (hwf : PoolWF p)
    (hinv : WorkerIdleNameInv p) :
    PoolWF (worker_complete p tid) ∧ WorkerIdleNameInv (worker_complete p tid) := by
  unfold worker_complete
  split
  · exact ⟨hwf, hinv⟩
  · rename_i hrange
    split
    · rename_i hbusy
      obtain ⟨hlen, htc, h0, hmin⟩ := hwf
      constructor
      · unfold PoolWF
        simp only [List.length_set]
        exact ⟨hlen, htc, h0, hmin⟩
      · intro i hi hstat
        simp only [List.length_set] at hi hstat ⊢
        by_cases hit : i = tid
        · subst hit
          have hlen2 : i < p.running_task_names.length := by omega
          rw [getD_set_self _ _ _ _ hlen2]
        · rw [getD_set_ne _ _ _ (fun hh => hit hh.symm)] at hstat
          rw [getD_set_ne _ _ _ (fun hh => hit hh.symm)]
          exact hinv i hi hstat
    · exact ⟨hwf, hinv⟩

theorem exit_preserves (p : Pool) (tid : Nat) (hwf : PoolWF p)
    (hinv : WorkerIdleNameInv p) :
    PoolWF (worker_exit p tid) ∧ WorkerIdleNameInv (worker_exit p tid) := by
  unfold worker_exit
  split
  · obtain ⟨hlen, htc, h0, hmin⟩ := hwf
    dsimp only
    constructor
    · unfold PoolWF
      split_ifs <;> simp only [List.length_set] <;> exact ⟨hlen, htc, h0, hmin⟩
    · unfold WorkerIdleNameInv
      dsimp only
      intro i hi hstat
      split_ifs at hi hstat with hin
      · simp only [List.length_set] at hi hstat
        by_cases hit : i = tid
        · subst hit
          rw [getD_set_self _ _ _ _ hi] at hstat
          exact absurd hstat (by decide)
        · rw [getD_set_ne _ _ _ (fun hh => hit hh.symm)] at hstat
          exact hinv i hi hstat
      · exact hinv i hi hstat
  · exact ⟨hwf, hinv⟩

theorem resize_preserves (p : Pool) (n : Int) (hwf : PoolWF p)
    (hinv : WorkerIdleNameInv p) :
    PoolWF (thread_pool_resize p n).2 ∧ WorkerIdleNameInv (thread_pool_resize p n).2 := by
  unfold thread_pool_resize
  split
  · exact ⟨hwf, hinv⟩
  · rename_i hrange
    split
    · exact ⟨hwf, hinv⟩
    · rename_i hsd
      split
      · exact ⟨hwf, hinv⟩
      · rename_i hne
        obtain ⟨hlen, htc, h0, hmin⟩ := hwf
        push_neg at hrange
        split
        · rename_i hlt
          dsimp only
          have htcN : p.thread_count.toNat ≤ p.thread_status.length := by omega
          have htcN2 : p.thread_count.toNat ≤ p.running_task_names.length := by omega
          constructor
          · refine ⟨?_, ?_, ?_, hmin⟩
            · show (List.take p.thread_count.toNat p.running_task_names ++
                  List.replicate (n - p.thread_count).toNat "[idle]".toList).length =
                (List.take p.thread_count.toNat p.thread_status ++
                  List.replicate (n - p.thread_count).toNat 0).length
              simp only [List.length_append, List.length_take, List.length_replicate, hlen]
            · show n ≤ ((List.take p.thread_count.toNat p.thread_status ++
                  List.replicate (n - p.thread_count).toNat 0).length : Int)
              simp only [List.length_append, List.length_take, List.length_replicate]
              omega
            · show (0 : Int) ≤ n
              omega
          · intro i hi hstat
            simp only [List.length_append, List.length_take, List.length_replicate] at hi
            by_cases hilt : i < p.thread_count.toNat
            · have hta : i < (List.take p.thread_count.toNat p.thread_status).length := by
                simp only [List.length_take]
                omega
              have htb : i < (List.take p.thread_count.toNat p.running_task_names).length := by
                simp only [List.length_take]
                omega
              rw [List.getD_append _ _ _ _ hta] at hstat
              rw [getD_take_of_lt _ _ hilt] at hstat
              rw [List.getD_append _ _ _ _ htb, getD_take_of_lt _ _ hilt]
              exact hinv i (by omega) hstat
            · have hta : (List.take p.thread_count.toNat p.thread_status).length ≤ i := by
                simp only [List.length_take]
                omega
              have htb : (List.take p.thread_count.toNat p.running_task_names).length ≤ i := by
                simp only [List.length_take]
                omega
              rw [List.getD_append_right _ _ _ _ htb]
              rw [getD_replicate_of_lt]
              · simp only [List.length_take]
                omega
        · rename_i hgt
          refine ⟨⟨hlen, ?_, ?_, hmin⟩, hinv⟩
          · show n ≤ (p.thread_status.length : Int)
            omega
          · show (0 : Int) ≤ n
            omega

theorem add_task_preserves (p : Pool) (f : Option Nat) (a : Nat)
    (nm : Option (List Char)) (pr : Int) (al : Bool) (q : Pool)
    (hq : (thread_pool_add_task (some p) f a nm pr al).2 = some q)
    (hwf : PoolWF p) (hinv : WorkerIdleNameInv p) :
    PoolWF q ∧ WorkerIdleNameInv q := by
  unfold thread_pool_add_task at hq
  cases f with
  | none =>
    simp only [Option.some.injEq] at hq
    subst hq
    exact ⟨hwf, hinv⟩
  | some fv =>
    simp only at hq
    split at hq
    · simp only [Option.some.injEq] at hq
      subst hq
      exact ⟨hwf, hinv⟩
    · split at hq
      · simp only [Option.some.injEq] at hq
        subst hq
        exact ⟨hwf, hinv⟩
      · simp only [Option.some.injEq] at hq
        subst hq
        exact ⟨hwf, hinv⟩

/-- Claim C1: evaluation of thread_pool_add_task at a concrete successful
call on a live pool. The call is accepted, yet the returned value is 0, the
value the source documents for success; it is not a task identifier and in
particular not at least 1. -/
theorem c1_add_task_returns_zero_on_success :
    (thread_pool_create 2).isSome = true ∧
    ((thread_pool_create 2).getD default).shutdown = false ∧
    (thread_pool_add_task (thread_pool_create 2) (some 7) 0 (some "t".toList)
        TASK_PRIORITY_NORMAL true).1 = 0 ∧
    ¬(1 ≤ (thread_pool_add_task (thread_pool_create 2) (some 7) 0 (some "t".toList)
        TASK_PRIORITY_NORMAL true).1) := by
  decide

/-- Claim C4: evaluation of thread_pool_add_task with a null name at a
concrete input. The stored name is the fixed literal "unnamed_task", which
differs from the synthesized per-task name "unnamed_task_1" the claim
describes for the first submitted task. -/
theorem c4_unnamed_task_name_has_no_id :
    (thread_pool_add_task (thread_pool_create 1) (some 7) 0 none
        TASK_PRIORITY_NORMAL true).1 = 0 ∧
    (((thread_pool_add_task (thread_pool_create 1) (some 7) 0 none
        TASK_PRIORITY_NORMAL true).2.getD default).queue.getD 0 default).task_name =
      "unnamed_task".toList ∧
    "unnamed_task".toList ≠ "unnamed_task_1".toList := by
  decide

/-- Claim C2: enqueue inserts the new task at the unique stable position, the
traversal stays monotonically non-decreasing in priority with equal
priorities in insertion order, and dequeue removes and returns the head,
which has the minimal priority value, or nothing when the queue is empty. -/
theorem c2_queue_priority_fifo (p : Pool) (task : Task) (hs : QueueSorted p.queue) :
    QueueSorted (task_enqueue_internal p task).queue ∧
    (task_enqueue_internal p task).queue =
      p.queue.takeWhile (fun t => decide (t.priority ≤ task.priority)) ++
        task :: p.queue.dropWhile (fun t => decide (t.priority ≤ task.priority)) ∧
    (task_dequeue_internal p = none ↔ p.queue = []) ∧
    ∀ h t, p.queue = h :: t →
      task_dequeue_internal p =
        some (h, { p with queue := t, task_queue_size := p.task_queue_size - 1 }) ∧
      (∀ x ∈ p.queue, h.priority ≤ x.priority) ∧ QueueSorted t := by
  refine ⟨?_, ?_, ?_, ?_⟩
  · rw [task_enqueue_queue]
    exact enqueue_walk_sorted task _ hs
  · rw [task_enqueue_queue]
    exact enqueue_walk_eq task _
  · unfold task_dequeue_internal
    cases p.queue <;> simp
  · intro h t hq
    unfold task_dequeue_internal
    unfold QueueSorted at hs
    rw [hq] at hs ⊢
    rw [List.pairwise_cons] at hs
    refine ⟨rfl, ?_, hs.2⟩
    intro x hx
    rcases List.mem_cons.mp hx with hx | hx
    · rw [hx]
    · exact hs.1 x hx

theorem c2_queue_priority_fifo_witness :
    QueueSorted (task_enqueue_internal poolQ taskH).queue :=
  (c2_queue_priority_fifo poolQ taskH (by decide)).1

/-- Claim C3: evaluation of the model along the shrink trace. The snapshot
returned by thread_pool_get_stats after the shrink and the worker exit has
idle_threads = 2 and thread_count = 1, so the bound idle_threads less than
or equal to thread_count fails in an observable snapshot. -/
theorem c3_idle_bound_violated_after_shrink :
    thread_pool_get_stats (some shrinkTrace) =
      some { thread_count := 1, min_threads := 1, max_threads := 4,
             idle_threads := 2, task_queue_size := 0, started := 2 } ∧
    ¬(((thread_pool_get_stats (some shrinkTrace)).getD default).idle_threads ≤
        ((thread_pool_get_stats (some shrinkTrace)).getD default).thread_count) := by
  decide

/-- Claim C5, counterexample: in the observable state immediately after a
successful thread_pool_create 1, worker 0 has status 1 (BUSY, set by create)
while its name slot holds "[idle]", so status IDLE and name "[idle]" are not
equivalent there. -/
theorem c5_idle_iff_fails_after_create :
    thread_pool_create 1 = some poolOne ∧
    ¬(poolOne.thread_status.getD 0 0 = 0 ↔
        poolOne.running_task_names.getD 0 [] = "[idle]".toList) := by
  decide

/-- Claim C5 (amended): at every observable moment, a worker whose status is
IDLE has the literal "[idle]" in its running_task_name slot; the converse
fails immediately after pool creation, where every worker starts with status
BUSY while its name slot already holds "[idle]". The forward implication is
established by create and preserved by dispatch, completion, worker exit,
resize and submit. -/
theorem c5_idle_implies_idle_name :
    (∀ n p, thread_pool_create n = some p → PoolWF p ∧ WorkerIdleNameInv p) ∧
    (∀ p tid, PoolWF p → WorkerIdleNameInv p →
      (PoolWF (worker_dispatch p tid) ∧ WorkerIdleNameInv (worker_dispatch p tid)) ∧
      (PoolWF (worker_complete p tid) ∧ WorkerIdleNameInv (worker_complete p tid)) ∧
      (PoolWF (worker_exit p tid) ∧ WorkerIdleNameInv (worker_exit p tid))) ∧
    (∀ p n, PoolWF p → WorkerIdleNameInv p →
      PoolWF (thread_pool_resize p n).2 ∧
        WorkerIdleNameInv (thread_pool_resize p n).2) ∧
    (∀ p f a nm pr al q, (thread_pool_add_task (some p) f a nm pr al).2 = some q →
      PoolWF p → WorkerIdleNameInv p → PoolWF q ∧ WorkerIdleNameInv q) :=
  ⟨create_establishes,
   fun p tid hwf hinv =>
     ⟨dispatch_preserves p tid hwf hinv, complete_preserves p tid hwf hinv,
      exit_preserves p tid hwf hinv⟩,
   fun p n hwf hinv => resize_preserves p n hwf hinv,
   fun p f a nm pr al q hq hwf hinv => add_task_preserves p f a nm pr al q hq hwf hinv⟩

theorem c5_idle_implies_idle_name_witness :
    WorkerIdleNameInv (worker_complete poolOne 0) :=
  ((c5_idle_implies_idle_name.2.1 poolOne 0 (by decide) (by decide)).2.1).2

/-- Claim C6: a resize target outside the current [min_threads, max_threads]
bounds is rejected with -1 and the whole pool state is unchanged, and a
resize on a pool whose shutdown flag is set is likewise rejected with -1
and changes nothing. -/
theorem c6_resize_rejects_out_of_range_and_shutdown (p : Pool) (n : Int) :
    ((n < p.min_threads ∨ p.max_threads < n) → thread_pool_resize p n = (-1, p)) ∧
    (p.shutdown = true → thread_pool_resize p n = (-1, p)) := by
  constructor
  · intro h
    unfold thread_pool_resize
    rw [if_pos h]
  · intro h
    unfold thread_pool_resize
    split
    · rfl
    · simp [h]

theorem c6_witness : thread_pool_resize poolQ 99 = (-1, poolQ) :=
  (c6_resize_rejects_out_of_range_and_shutdown poolQ 99).1 (by decide)

/-- Claim C7: create rejects every non-positive initial count, and a
successful create yields min_threads = 1, max_threads = twice the initial
count, idle_threads = 0, thread_count equal to the initial count and the
shutdown flag clear. -/
theorem c7_create_validates_and_initializes (n : Int) :
    (n ≤ 0 → thread_pool_create n = none) ∧
    (∀ p, thread_pool_create n = some p →
      p.min_threads = 1 ∧ p.max_threads = 2 * n ∧ p.idle_threads = 0 ∧
        p.thread_count = n ∧ p.shutdown = false) := by
  constructor
  · intro h
    unfold thread_pool_create
    rw [if_pos h]
  · intro p hp
    unfold thread_pool_create at hp
    split at hp
    · exact absurd hp (by simp)
    · injection hp with hp
      subst hp
      exact ⟨rfl, Int.mul_comm n 2, rfl, rfl, rfl⟩

theorem c7_witness : thread_pool_create 0 = none ∧ poolTwo.min_threads = 1 :=
  ⟨(c7_create_validates_and_initializes 0).1 (by decide),
   ((c7_create_validates_and_initializes 2).2 poolTwo (by decide)).1⟩

/-- Claim C8: on a snapshot with auto-adjust enabled, no shutdown, and the
thread count within bounds, the controller decision is: grow by one when the
queue size exceeds the high watermark and there is room below max_threads;
otherwise shrink by one when the idle count exceeds the low watermark and the
count is above min_threads; otherwise request nothing. -/
theorem c8_auto_adjust_decision_spec (p : Pool)
    (ha : p.auto_adjust = true) (hs : p.shutdown = false)
    (h1 : p.min_threads ≤ p.thread_count) (h2 : p.thread_count ≤ p.max_threads) :
    auto_adjust_decision p =
      if p.task_queue_size > p.high_watermark ∧ p.thread_count < p.max_threads
      then some (p.thread_count + 1)
      else if p.idle_threads > p.low_watermark ∧ p.thread_count > p.min_threads
      then some (p.thread_count - 1)
      else none := by
  simp only [auto_adjust_decision]
  rw [if_pos ⟨ha, hs⟩]
  split_ifs <;> first | rfl | omega

theorem c8_witness : auto_adjust_decision pool8 = some 3 := by
  have h := c8_auto_adjust_decision_spec pool8 (by decide) (by decide) (by decide) (by decide)
  rw [h]
  decide

/-- Claim C9: a second resize to the same in-bounds target after a successful
resize is a no-op: it returns 0 and changes no pool state. -/
theorem c9_resize_idempotent (p : Pool) (n r : Int) (p2 : Pool)
    (h : thread_pool_resize p n = (r, p2)) (hr : r = 0) :
    thread_pool_resize p2 n = (0, p2) := by
  subst hr
  unfold thread_pool_resize at h
  split at h
  · exact absurd (congrArg Prod.fst h) (by simp)
  · rename_i hrange
    split at h
    · exact absurd (congrArg Prod.fst h) (by simp)
    · rename_i hsd
      split at h
      · rename_i heq
        have hp : p2 = p := (Prod.mk.injEq _ _ _ _).mp h |>.2 |>.symm
        subst hp
        unfold thread_pool_resize
        rw [if_neg hrange, if_neg hsd, if_pos heq]
      · rename_i hne
        split at h
        · rename_i hlt
          have hp : p2 = _ := (Prod.mk.injEq _ _ _ _).mp h |>.2 |>.symm
          subst hp
          unfold thread_pool_resize
          simp [hrange, hsd]
        · have hp : p2 = _ := (Prod.mk.injEq _ _ _ _).mp h |>.2 |>.symm
          subst hp
          unfold thread_pool_resize
          simp [hrange, hsd]

theorem c9_witness : thread_pool_resize poolGrown 3 = (0, poolGrown) :=
  c9_resize_idempotent poolTwo 3 0 poolGrown (by decide) rfl

/-- Claim C10: for a pool that is not shut down (and with the modelled
allocator succeeding) the snapshot is an array with exactly thread_count
entries, each of at most 63 characters; a shut-down pool yields the null
result instead. -/
theorem c10_get_running_task_names_shape (p : Pool) (h0 : 0 ≤ p.thread_count) :
    (p.shutdown = true → thread_pool_get_running_task_names (some p) = none) ∧
    (p.shutdown = false →
      (thread_pool_get_running_task_names (some p)).isSome = true ∧
      (((thread_pool_get_running_task_names (some p)).getD []).length : Int) =
        p.thread_count ∧
      ∀ s ∈ (thread_pool_get_running_task_names (some p)).getD [],
        s.length ≤ MAX_TASK_NAME_LEN - 1) := by
  constructor
  · intro h
    unfold thread_pool_get_running_task_names
    simp [h]
  · intro h
    unfold thread_pool_get_running_task_names
    simp only [h, Bool.false_eq_true, if_false]
    refine ⟨rfl, ?_, ?_⟩
    · simp only [Option.getD_some, List.length_map, List.length_range]
      have hcnt : (if p.thread_count < 0 then 0 else p.thread_count) = p.thread_count := by
        omega
      rw [hcnt, Int.toNat_of_nonneg h0]
    · intro s hsm
      simp only [Option.getD_some, List.mem_map] at hsm
      obtain ⟨i, _, hfi⟩ := hsm
      subst hfi
      split_ifs
      · simp [List.length_take, MAX_TASK_NAME_LEN]
      · decide
      · decide
      · decide

theorem c10_witness :
    (((thread_pool_get_running_task_names (some poolTwo)).getD []).length : Int) =
      poolTwo.thread_count :=
  ((c10_get_running_task_names_shape poolTwo (by decide)).2 (by decide)).2.1

end CrolinThread
